import Mathlib

/-!
Shallow embedding of the `dracory/database` Go module: the queryable-context
wrapper (`types.go`, `funcs.go`), the execution helpers (`execute.go`,
`query.go`, `select.go`), and the dialect resolver (`database_type.go`,
modelled from the spec because its source is not in the repository snapshot).
-/

namespace DracoryDatabase

/-- A connection pool (`*sql.DB`). The `id` distinguishes distinct pool
objects; `driverName` is the driver-registration name the pool was opened
with (consulted by dialect resolution). -/
structure Pool where
  id : Nat
  driverName : String
deriving DecidableEq

/-- A non-nil value of Go interface type `QueryableInterface`: one of the
three expected dynamic types `*sql.DB`, `*sql.Conn`, `*sql.Tx`, or a foreign
implementation of the interface.  A `*sql.Conn` / `*sql.Tx` holds a private
reference to its parent pool; `none` models the case where that private
reference is nil or unrecoverable. -/
inductive Queryable where
  | db (pool : Pool)
  | conn (id : Nat) (parent : Option Pool)
  | tx (id : Nat) (parent : Option Pool)
  | foreign (id : Nat)
deriving DecidableEq

/-- `_, ok := q.(*sql.DB)` on a non-nil queryable. -/
def Queryable.assertDB : Queryable → Bool
  | .db _ => true
  | _ => false

/-- `_, ok := q.(*sql.Conn)` on a non-nil queryable. -/
def Queryable.assertConn : Queryable → Bool
  | .conn _ _ => true
  | _ => false

/-- `_, ok := q.(*sql.Tx)` on a non-nil queryable. -/
def Queryable.assertTx : Queryable → Bool
  | .tx _ _ => true
  | _ => false

/-- A queryable is well-formed when it is one of the three documented
dynamic types (`*sql.DB`, `*sql.Conn`, `*sql.Tx`), i.e. not foreign. -/
def Queryable.wellFormed : Queryable → Bool
  | .foreign _ => false
  | _ => true

/-- A Go `context.Context` value: the background context, some other
context wrapper (`WithValue`, `WithCancel`, ...), or a value of the struct
type `QueryableContext` (a parent context plus a queryable field, which is
`none` when the Go interface value stored there is nil). -/
inductive GoContext where
  | background
  | plain (parent : GoContext)
  | qctx (parent : GoContext) (queryable : Option Queryable)
deriving DecidableEq

/-- The struct type `QueryableContext` from `types.go`: an embedded parent
context plus the private `queryable` field. -/
structure QueryableContext where
  Context : GoContext
  queryable : Option Queryable
deriving DecidableEq

/-- Converting a `QueryableContext` struct value to the `context.Context`
interface (what happens implicitly at every Go call site that passes one
as a plain context). -/
def QueryableContext.toCtx (c : QueryableContext) : GoContext :=
  .qctx c.Context c.queryable

/-- `NewQueryableContext` from `types.go`: build the struct directly. -/
def NewQueryableContext (ctx : GoContext) (queryable : Option Queryable) :
    QueryableContext :=
  { Context := ctx, queryable := queryable }

/-- `NewQueryableContextOr` from `types.go`: the type assertion
`ctx.(QueryableContext)` succeeds exactly on the `qctx` variant, and then
the asserted value itself is returned; otherwise a new wrapper is built. -/
def NewQueryableContextOr (ctx : GoContext) (queryable : Option Queryable) :
    QueryableContext :=
  match ctx with
  | .qctx p q => { Context := p, queryable := q }
  | _ => { Context := ctx, queryable := queryable }

/-- `IsQueryableContext` from `funcs.go`: the type assertion as a predicate. -/
def IsQueryableContext (ctx : GoContext) : Bool :=
  match ctx with
  | .qctx _ _ => true
  | _ => false

/-- `Context` from `funcs.go`: direct alias of `NewQueryableContext`. -/
def Context (ctx : GoContext) (queryable : Option Queryable) :
    QueryableContext :=
  NewQueryableContext ctx queryable

/-- `ContextOr` from `funcs.go`: direct alias of `NewQueryableContextOr`. -/
def ContextOr (ctx : GoContext) (queryable : Option Queryable) :
    QueryableContext :=
  NewQueryableContextOr ctx queryable

/-- Method `Queryable()` from `types.go`. -/
def QueryableContext.Queryable (ctx : QueryableContext) : Option Queryable :=
  ctx.queryable

/-- Method `IsConn()` from `types.go`: nil check, then assert `*sql.Conn`. -/
def QueryableContext.IsConn (ctx : QueryableContext) : Bool :=
  match ctx.queryable with
  | none => false
  | some q => q.assertConn

/-- Method `IsTx()` from `types.go`: nil check, then assert `*sql.Tx`. -/
def QueryableContext.IsTx (ctx : QueryableContext) : Bool :=
  match ctx.queryable with
  | none => false
  | some q => q.assertTx

/-- Method `IsDB()` from `types.go`: nil check, then rule out `IsTx` and
`IsConn`, then assert `*sql.DB`. -/
def QueryableContext.IsDB (ctx : QueryableContext) : Bool :=
  match ctx.queryable with
  | none => false
  | some q =>
    if ctx.IsTx then false
    else if ctx.IsConn then false
    else q.assertDB

/-- A Go `any` value reaching the scanners: nil or some concrete value. -/
inductive GoAny where
  | null
  | val (n : Nat)
deriving DecidableEq

/-- A `sql.Result` (what `ExecContext` yields on success). -/
structure SqlResult where
  lastInsertId : Int
  rowsAffected : Int
deriving DecidableEq

/-- The observable behaviour of a `*sql.Rows` cursor as consumed by
`SelectToMapAny`: the outcome of `rows.Columns()`, the sequence of rows
(each either scanning successfully to a value list or failing in
`rows.Scan`), and the outcome of the final `rows.Err()` call. -/
structure Rows where
  columns : Except String (List String)
  rows : List (Except String (List GoAny))
  finalErr : Option String

/-- A Go `map[string]any` as an insert-overwrite association list. -/
abbrev RowMap := List (String × GoAny)

/-- A Go `map[string]string`. -/
abbrev StrMap := List (String × String)

/-- Go map assignment `m[k] = v`: overwrite if present, else append. -/
def mapInsert (m : List (String × GoAny)) (k : String) (v : GoAny) :
    List (String × GoAny) :=
  if m.any (fun kv => kv.1 = k) then
    m.map (fun kv => if kv.1 = k then (k, v) else kv)
  else
    m ++ [(k, v)]

/-- The environment of underlying driver calls: `ExecContext` and
`QueryContext` on a non-nil queryable, and the external
`maputils.MapStringAnyToMapStringString` conversion.  Quantifying theorems
over every such environment expresses that a result reached without
consulting it was produced without invoking any underlying call. -/
structure ExecEnv where
  execContext : Queryable → GoContext → String → List GoAny →
    Except String SqlResult
  queryContext : Queryable → GoContext → String → List GoAny →
    Except String Rows
  mapAnyToString : RowMap → StrMap

/-- `Execute` from `execute.go`: nil-querier guard, re-wrap through
`NewQueryableContextOr` (a no-op on an already-queryable context), then
delegate to `ExecContext`. -/
def Execute (env : ExecEnv) (ctx : QueryableContext) (sqlStr : String)
    (args : List GoAny) : Except String SqlResult :=
  match ctx.queryable with
  | none => .error "querier (db/tx/conn) is nil"
  | some q =>
    let ctx2 := NewQueryableContextOr ctx.toCtx ctx.queryable
    env.execContext q ctx2.toCtx sqlStr args

/-- `Query` from `query.go`: nil-querier guard, re-wrap, then delegate to
`QueryContext`. -/
def Query (env : ExecEnv) (ctx : QueryableContext) (sqlStr : String)
    (args : List GoAny) : Except String Rows :=
  match ctx.queryable with
  | none => .error "querier (db/tx/conn) is nil"
  | some q =>
    let ctx2 := NewQueryableContextOr ctx.toCtx ctx.queryable
    env.queryContext q ctx2.toCtx sqlStr args

/-- The per-row body of the `rows.Next()` loop in `SelectToMapAny`:
`values` is initialized to nils of length `len(columns)` and overwritten by
`rows.Scan`, then `row[col] = values[i]` for each column (the nil and
non-nil branches of the source both store the value). -/
def buildRow (cols : List String) (vals : List GoAny) : RowMap :=
  cols.enum.foldl
    (fun row icol =>
      let val := vals.getD icol.1 .null
      if val = .null then mapInsert row icol.2 .null
      else mapInsert row icol.2 val)
    []

/-- The `rows.Next()` loop of `SelectToMapAny`: accumulate converted rows;
a scan failure aborts the loop with that error. -/
def scanLoop (cols : List String) (acc : List RowMap) :
    List (Except String (List GoAny)) → Except String (List RowMap)
  | [] => .ok acc
  | .error e :: _ => .error e
  | .ok vals :: rest => scanLoop cols (acc ++ [buildRow cols vals]) rest

/-- `SelectToMapAny` from `select.go`.  The Go function returns a slice and
an error; a Go slice is `Option (List _)` (`none` is the nil slice, and the
source only ever returns the non-nil literal `[]map[string]any{}` or the
accumulated list). -/
def SelectToMapAny (env : ExecEnv) (ctx : QueryableContext) (sqlStr : String)
    (args : List GoAny) : Option (List RowMap) × Option String :=
  match ctx.queryable with
  | none => (some [], some "querier (db/tx/conn) is nil")
  | some q =>
    match env.queryContext q ctx.toCtx sqlStr args with
    | .error e => (some [], some e)
    | .ok rows =>
      match rows.columns with
      | .error e => (some [], some e)
      | .ok cols =>
        match scanLoop cols [] rows.rows with
        | .error e => (some [], some e)
        | .ok listMap =>
          match rows.finalErr with
          | some e => (some [], some e)
          | none => (some listMap, none)

/-- `SelectToMapString` from `select.go`: nil-querier guard, delegate to
`SelectToMapAny`, then convert each row map via the external
`maputils.MapStringAnyToMapStringString` (ranging over a possibly-nil slice
visits no elements). -/
def SelectToMapString (env : ExecEnv) (ctx : QueryableContext)
    (sqlStr : String) (args : List GoAny) :
    Option (List StrMap) × Option String :=
  match ctx.queryable with
  | none => (some [], some "querier (db/tx/conn) is nil")
  | some _ =>
    match SelectToMapAny env ctx sqlStr args with
    | (_, some e) => (some [], some e)
    | (listAny, none) =>
      (some ((listAny.getD []).map env.mapAnyToString), none)

/-! Dialect resolution.  `database_type.go` is not part of the repository
snapshot (only its tests and a fragment quoted in `docs/security-review.md`
are), so the resolver is modelled from the spec, section 4.2. -/

/-- Dialect tag constants, modelled from the spec glossary enumeration
(sqlite, mysql, postgres, mssql, unknown). -/
def DATABASE_TYPE_SQLITE : String := "sqlite"

def DATABASE_TYPE_MYSQL : String := "mysql"

def DATABASE_TYPE_POSTGRES : String := "postgres"

def DATABASE_TYPE_MSSQL : String := "mssql"

def DATABASE_TYPE_UNKNOWN : String := "unknown"

/-- Lower-casing a string character by character. -/
def lowerString (s : String) : String :=
  String.mk (s.data.map Char.toLower)

/-- `s` contains `pat` as a substring (case already normalised). -/
def containsSub (s pat : String) : Bool :=
  (List.range (s.data.length + 1)).any
    (fun i => pat.data.isPrefixOf (s.data.drop i))

/-- Modelled from the spec: step 1 of dialect resolution — map a pool's
registered driver name to the dialect enumeration by case-insensitive
substring matching, defaulting to the distinct "unknown" tag. -/
def dialectFromDriverName (name : String) : String :=
  let n := lowerString name
  if containsSub n "sqlite" then DATABASE_TYPE_SQLITE
  else if containsSub n "mysql" then DATABASE_TYPE_MYSQL
  else if containsSub n "postgres" then DATABASE_TYPE_POSTGRES
  else if containsSub n "mssql" then DATABASE_TYPE_MSSQL
  else DATABASE_TYPE_UNKNOWN

/-- Modelled from the spec: `DatabaseType` (`database_type.go`, absent from
the snapshot).  A bare pool consults its own driver name; a transaction or
checked-out connection recovers the private parent-pool reference via the
unsafe traversal and recurses into the pool case; any recovery failure
(nil reference, unexpected layout, fault — modelled by `parent = none`),
a foreign handle, or a nil handle yields the "unknown" tag instead of
raising. -/
def DatabaseType (q : Option Queryable) : String :=
  match q with
  | some (.db p) => dialectFromDriverName p.driverName
  | some (.conn _ (some p)) => dialectFromDriverName p.driverName
  | some (.tx _ (some p)) => dialectFromDriverName p.driverName
  | some (.conn _ none) => DATABASE_TYPE_UNKNOWN
  | some (.tx _ none) => DATABASE_TYPE_UNKNOWN
  | some (.foreign _) => DATABASE_TYPE_UNKNOWN
  | none => DATABASE_TYPE_UNKNOWN

/-- A trivial instantiation of the underlying-call environment, used to
evaluate the helpers at concrete inputs. -/
def trivialEnv : ExecEnv where
  execContext := fun _ _ _ _ => .error "exec"
  queryContext := fun _ _ _ _ => .error "query"
  mapAnyToString := fun _ => []

/-- C1: on a context that is already a `QueryableContext` bound to handle
`h1`, `NewQueryableContextOr` (and its alias `ContextOr`) with any handle
`h2` returns the very same context value (Go struct identity is value
equality), whose `Queryable()` is `h1` and, whenever `h1 ≠ h2`, not `h2`. -/
theorem c1_wrapPreservingExisting_keeps_bound (c : QueryableContext)
    (h1 h2 : Queryable) (hb : c.Queryable = some h1) :
    NewQueryableContextOr c.toCtx (some h2) = c ∧
    ContextOr c.toCtx (some h2) = c ∧
    (NewQueryableContextOr c.toCtx (some h2)).Queryable = some h1 ∧
    (h1 ≠ h2 →
      (NewQueryableContextOr c.toCtx (some h2)).Queryable ≠ some h2) := by
  obtain ⟨p, q⟩ := c
  simp only [QueryableContext.Queryable] at hb
  subst hb
  refine ⟨rfl, rfl, rfl, ?_⟩
  intro hne hc
  simp only [NewQueryableContextOr, QueryableContext.toCtx,
    QueryableContext.Queryable, Option.some.injEq] at hc
  exact hne hc

/-- Witness for C1 at a concrete bound context and a distinct handle. -/
theorem c1_witness :
    NewQueryableContextOr
        (QueryableContext.mk GoContext.background
          (some (Queryable.db ⟨0, "sqlite"⟩))).toCtx
        (some (Queryable.db ⟨1, "mysql"⟩)) =
      QueryableContext.mk GoContext.background
        (some (Queryable.db ⟨0, "sqlite"⟩)) :=
  (c1_wrapPreservingExisting_keeps_bound
    (QueryableContext.mk GoContext.background
      (some (Queryable.db ⟨0, "sqlite"⟩)))
    (Queryable.db ⟨0, "sqlite"⟩) (Queryable.db ⟨1, "mysql"⟩) rfl).1

/-- C2: on a context that is not a `QueryableContext`, wrapping through
`NewQueryableContextOr` (alias `ContextOr`) binds exactly the supplied
handle: the result is a fresh wrapper around `ctx` whose `Queryable()` is
`h`.  ("Without a bound handle" is the code's `IsQueryableContext = false`;
the nil-queryable `QueryableContext` case is settled separately by C3.) -/
theorem c2_wrapPreservingExisting_binds_new (ctx : GoContext)
    (h : Option Queryable) (hn : IsQueryableContext ctx = false) :
    NewQueryableContextOr ctx h = { Context := ctx, queryable := h } ∧
    (NewQueryableContextOr ctx h).Queryable = h ∧
    ContextOr ctx h = NewQueryableContextOr ctx h := by
  cases ctx <;>
    simp_all [NewQueryableContextOr, IsQueryableContext, ContextOr,
      QueryableContext.Queryable]

/-- Witness for C2 at the background context and a concrete handle. -/
theorem c2_witness :
    (NewQueryableContextOr GoContext.background
        (some (Queryable.db ⟨0, "sqlite"⟩))).Queryable =
      some (Queryable.db ⟨0, "sqlite"⟩) :=
  (c2_wrapPreservingExisting_binds_new GoContext.background
    (some (Queryable.db ⟨0, "sqlite"⟩)) rfl).2.1

/-- C3: a `QueryableContext` whose queryable is nil (as built by
`NewQueryableContext` with a nil handle) is returned unchanged by
`NewQueryableContextOr`, so the supplied non-nil handle is discarded and
the result's `Queryable()` is still nil. -/
theorem c3_nil_bound_queryable_not_filled (p : GoContext) (h : Queryable) :
    NewQueryableContextOr (NewQueryableContext p none).toCtx (some h) =
      NewQueryableContext p none ∧
    (NewQueryableContextOr (NewQueryableContext p none).toCtx
        (some h)).Queryable = none := by
  exact ⟨rfl, rfl⟩

/-- C7: `NewQueryableContextOr` is idempotent — applying it twice with the
same arguments equals applying it once — and once a context is a
`QueryableContext`, a further application with any handle never changes
which handle is bound. -/
theorem c7_wrapPreservingExisting_idempotent (ctx : GoContext)
    (h : Option Queryable) (c : QueryableContext) (h2 : Option Queryable) :
    NewQueryableContextOr (NewQueryableContextOr ctx h).toCtx h =
      NewQueryableContextOr ctx h ∧
    (NewQueryableContextOr (NewQueryableContextOr ctx h).toCtx h2).Queryable
      = (NewQueryableContextOr ctx h).Queryable ∧
    (NewQueryableContextOr c.toCtx h2).Queryable = c.Queryable := by
  refine ⟨?_, ?_, rfl⟩ <;>
    cases ctx <;>
      simp [NewQueryableContextOr, QueryableContext.toCtx,
        QueryableContext.Queryable]

/-- C8: `NewQueryableContext` (alias `Context`) always builds a fresh
context bound to exactly the supplied handle — including the nil handle —
overwriting any binding the parent carried. -/
theorem c8_wrap_always_binds (ctx : GoContext) (h : Option Queryable)
    (p : GoContext) (q0 : Option Queryable) :
    NewQueryableContext ctx h = { Context := ctx, queryable := h } ∧
    (NewQueryableContext ctx h).Queryable = h ∧
    Context ctx h = NewQueryableContext ctx h ∧
    (NewQueryableContext (QueryableContext.mk p q0).toCtx h).Queryable = h ∧
    (NewQueryableContext ctx none).Queryable = none := by
  exact ⟨rfl, rfl, rfl, rfl, rfl⟩

/-- C9: the classification methods `IsDB`, `IsConn`, `IsTx` are mutually
exclusive — exactly one holds when the bound handle is non-nil and
well-formed (`*sql.DB`, `*sql.Conn` or `*sql.Tx`) — and all three are
false when the handle is nil or of a foreign type. -/
theorem c9_classification_exclusive (c : QueryableContext) :
    (∀ q, c.queryable = some q → q.wellFormed = true →
      (cond c.IsDB 1 0) + (cond c.IsConn 1 0) + (cond c.IsTx 1 0) = 1) ∧
    (c.queryable = none →
      c.IsDB = false ∧ c.IsConn = false ∧ c.IsTx = false) ∧
    (∀ i, c.queryable = some (.foreign i) →
      c.IsDB = false ∧ c.IsConn = false ∧ c.IsTx = false) := by
  obtain ⟨p, q⟩ := c
  refine ⟨?_, ?_, ?_⟩
  · rintro q' rfl hwf
    cases q' <;>
      simp_all [QueryableContext.IsDB, QueryableContext.IsConn,
        QueryableContext.IsTx, Queryable.assertDB, Queryable.assertConn,
        Queryable.assertTx, Queryable.wellFormed]
  · rintro rfl
    exact ⟨rfl, rfl, rfl⟩
  · rintro i rfl
    exact ⟨rfl, rfl, rfl⟩

/-- Witness for C9 at a context bound to a concrete pool handle. -/
theorem c9_witness :
    (cond (QueryableContext.mk GoContext.background
        (some (Queryable.db ⟨0, "sqlite"⟩))).IsDB 1 0) +
      (cond (QueryableContext.mk GoContext.background
        (some (Queryable.db ⟨0, "sqlite"⟩))).IsConn 1 0) +
      (cond (QueryableContext.mk GoContext.background
        (some (Queryable.db ⟨0, "sqlite"⟩))).IsTx 1 0) = 1 :=
  (c9_classification_exclusive _).1 (Queryable.db ⟨0, "sqlite"⟩) rfl rfl

/-- C6: every execution helper called with a nil queryable returns the
descriptive error "querier (db/tx/conn) is nil" — for every environment of
underlying calls, so no `ExecContext`/`QueryContext` call is consulted —
and the select helpers pair it with the non-nil empty slice. -/
theorem c6_nil_querier_rejected (env : ExecEnv) (c : QueryableContext)
    (s : String) (a : List GoAny) (hq : c.queryable = none) :
    Execute env c s a = .error "querier (db/tx/conn) is nil" ∧
    Query env c s a = .error "querier (db/tx/conn) is nil" ∧
    SelectToMapAny env c s a =
      (some [], some "querier (db/tx/conn) is nil") ∧
    SelectToMapString env c s a =
      (some [], some "querier (db/tx/conn) is nil") := by
  obtain ⟨p, q⟩ := c
  simp only at hq
  subst hq
  exact ⟨rfl, rfl, rfl, rfl⟩

/-- Witness for C6 at a concrete nil-queryable context and environment. -/
theorem c6_witness :
    Execute trivialEnv (QueryableContext.mk GoContext.background none)
        "SELECT 1" [] = .error "querier (db/tx/conn) is nil" :=
  (c6_nil_querier_rejected trivialEnv
    (QueryableContext.mk GoContext.background none) "SELECT 1" [] rfl).1

/-- Every run of `SelectToMapAny` either succeeds with a non-nil slice and
no error, or fails with the non-nil empty slice and some error. -/
theorem selectToMapAny_shape (env : ExecEnv) (c : QueryableContext)
    (s : String) (a : List GoAny) :
    (∃ l, SelectToMapAny env c s a = (some l, none)) ∨
    (∃ e, SelectToMapAny env c s a = (some [], some e)) := by
  cases hq : c.queryable with
  | none =>
    exact .inr ⟨"querier (db/tx/conn) is nil", by simp [SelectToMapAny, hq]⟩
  | some q =>
    cases he : env.queryContext q c.toCtx s a with
    | error e => exact .inr ⟨e, by simp [SelectToMapAny, hq, he]⟩
    | ok rows =>
      cases hcols : rows.columns with
      | error e => exact .inr ⟨e, by simp [SelectToMapAny, hq, he, hcols]⟩
      | ok cols =>
        cases hscan : scanLoop cols [] rows.rows with
        | error e =>
          exact .inr ⟨e, by simp [SelectToMapAny, hq, he, hcols, hscan]⟩
        | ok l =>
          cases hf : rows.finalErr with
          | none =>
            exact .inl ⟨l, by simp [SelectToMapAny, hq, he, hcols, hscan, hf]⟩
          | some e =>
            exact .inr ⟨e, by simp [SelectToMapAny, hq, he, hcols, hscan, hf]⟩

/-- Every run of `SelectToMapString` either succeeds with a non-nil slice
and no error, or fails with the non-nil empty slice and some error. -/
theorem selectToMapString_shape (env : ExecEnv) (c : QueryableContext)
    (s : String) (a : List GoAny) :
    (∃ l, SelectToMapString env c s a = (some l, none)) ∨
    (∃ e, SelectToMapString env c s a = (some [], some e)) := by
  cases hq : c.queryable with
  | none =>
    exact .inr ⟨"querier (db/tx/conn) is nil",
      by simp [SelectToMapString, hq]⟩
  | some q =>
    rcases selectToMapAny_shape env c s a with ⟨l, hl⟩ | ⟨e, he⟩
    · exact .inl ⟨List.map env.mapAnyToString l,
        by simp [SelectToMapString, hq, hl]⟩
    · exact .inr ⟨e, by simp [SelectToMapString, hq, he]⟩

/-- C10: whenever `SelectToMapAny` or `SelectToMapString` returns an
error — nil queryable, query execution, column retrieval, row scanning or
row iteration — the slice it returns is the non-nil empty slice (never nil
and never partially accumulated), and a success with zero result rows also
yields the non-nil empty slice. -/
theorem c10_empty_slice_on_error (env : ExecEnv) (c : QueryableContext)
    (s : String) (a : List GoAny) :
    ((SelectToMapAny env c s a).2 ≠ none →
      (SelectToMapAny env c s a).1 = some []) ∧
    ((SelectToMapString env c s a).2 ≠ none →
      (SelectToMapString env c s a).1 = some []) ∧
    (∀ q rows cols, c.queryable = some q →
      env.queryContext q c.toCtx s a = .ok rows →
      rows.columns = .ok cols → rows.rows = [] → rows.finalErr = none →
      SelectToMapAny env c s a = (some [], none) ∧
      SelectToMapString env c s a = (some [], none)) := by
  refine ⟨?_, ?_, ?_⟩
  · intro hne
    rcases selectToMapAny_shape env c s a with ⟨l, hl⟩ | ⟨e, he⟩
    · rw [hl] at hne; exact absurd rfl hne
    · rw [he]
  · intro hne
    rcases selectToMapString_shape env c s a with ⟨l, hl⟩ | ⟨e, he⟩
    · rw [hl] at hne; exact absurd rfl hne
    · rw [he]
  · intro q rows cols hq he hcols hrows hf
    have hany : SelectToMapAny env c s a = (some [], none) := by
      simp [SelectToMapAny, hq, he, hcols, hrows, hf, scanLoop]
    refine ⟨hany, ?_⟩
    simp [SelectToMapString, hq, hany]

/-- Witness for C10: a nil-queryable run returns an error paired with the
non-nil empty slice. -/
theorem c10_witness :
    (SelectToMapAny trivialEnv
      (QueryableContext.mk GoContext.background none) "SELECT 1" []).1 =
      some [] :=
  (c10_empty_slice_on_error trivialEnv
    (QueryableContext.mk GoContext.background none) "SELECT 1" []).1
    (by decide)

/-- The driver-name mapping only ever yields one of the five dialect
tags. -/
theorem dialectFromDriverName_mem (name : String) :
    dialectFromDriverName name = DATABASE_TYPE_SQLITE ∨
    dialectFromDriverName name = DATABASE_TYPE_MYSQL ∨
    dialectFromDriverName name = DATABASE_TYPE_POSTGRES ∨
    dialectFromDriverName name = DATABASE_TYPE_MSSQL ∨
    dialectFromDriverName name = DATABASE_TYPE_UNKNOWN := by
  simp only [dialectFromDriverName]
  split_ifs <;> tauto

/-- C4: dialect resolution is a total function into the dialect
enumeration — it never raises or propagates a crash — and every failure
case (nil handle, foreign handle type, or a failed unsafe recovery of the
parent pool from a transaction or connection) yields the "unknown" tag. -/
theorem c4_dialect_resolution_never_fails (q : Option Queryable) :
    (DatabaseType q = DATABASE_TYPE_SQLITE ∨
     DatabaseType q = DATABASE_TYPE_MYSQL ∨
     DatabaseType q = DATABASE_TYPE_POSTGRES ∨
     DatabaseType q = DATABASE_TYPE_MSSQL ∨
     DatabaseType q = DATABASE_TYPE_UNKNOWN) ∧
    (q = none → DatabaseType q = DATABASE_TYPE_UNKNOWN) ∧
    (∀ i, q = some (.foreign i) →
      DatabaseType q = DATABASE_TYPE_UNKNOWN) ∧
    (∀ i, q = some (.conn i none) →
      DatabaseType q = DATABASE_TYPE_UNKNOWN) ∧
    (∀ i, q = some (.tx i none) →
      DatabaseType q = DATABASE_TYPE_UNKNOWN) := by
  refine ⟨?_, ?_, ?_, ?_, ?_⟩
  · match q with
    | none => exact .inr (.inr (.inr (.inr rfl)))
    | some (.db p) => exact dialectFromDriverName_mem p.driverName
    | some (.conn _ (some p)) => exact dialectFromDriverName_mem p.driverName
    | some (.tx _ (some p)) => exact dialectFromDriverName_mem p.driverName
    | some (.conn _ none) => exact .inr (.inr (.inr (.inr rfl)))
    | some (.tx _ none) => exact .inr (.inr (.inr (.inr rfl)))
    | some (.foreign _) => exact .inr (.inr (.inr (.inr rfl)))
  · rintro rfl; rfl
  · rintro i rfl; rfl
  · rintro i rfl; rfl
  · rintro i rfl; rfl

/-- Witness for C4 at a concrete foreign handle. -/
theorem c4_witness :
    DatabaseType (some (Queryable.foreign 0)) = DATABASE_TYPE_UNKNOWN :=
  (c4_dialect_resolution_never_fails (some (Queryable.foreign 0))).2.2.1
    0 rfl

/-- C5: a transaction or checked-out connection whose recovered parent is
pool `p` resolves to the same dialect tag as `p` itself, and a pool whose
driver name contains "sqlite" (case-insensitively) resolves to
`DATABASE_TYPE_SQLITE`. -/
theorem c5_dialect_matches_parent_pool (p : Pool) (i j : Nat) :
    DatabaseType (some (.tx i (some p))) = DatabaseType (some (.db p)) ∧
    DatabaseType (some (.conn j (some p))) = DatabaseType (some (.db p)) ∧
    (containsSub (lowerString p.driverName) "sqlite" = true →
      DatabaseType (some (.db p)) = DATABASE_TYPE_SQLITE) := by
  refine ⟨rfl, rfl, ?_⟩
  intro hs
  simp [DatabaseType, dialectFromDriverName, hs]

/-- Witness for C5: a sqlite-driver pool and a transaction on it both
resolve to the sqlite tag. -/
theorem c5_witness :
    DatabaseType (some (Queryable.db ⟨0, "sqlite"⟩)) =
      DATABASE_TYPE_SQLITE :=
  (c5_dialect_matches_parent_pool ⟨0, "sqlite"⟩ 0 0).2.2 (by decide)

end DracoryDatabase
